import Mathlib

/-!
# BFV fixture reconciliation engine — shallow embedding

This file embeds the core of the OrderPortal repository's BFV import module
(`bfvImportService.ts`: `generateMatchKey`, `generateExternalId`,
`getDefaultFieldForTeam`, `matchNeedsUpdate`, `importBfvMatches`) together
with the slice of the persistent store it touches (`dbStorage.ts`:
`getCalendarEventByBfvId`, the fallback query, `getDefaultField`,
`getBfvEventIds`, `createImportHistory`, and the drizzle `insert`/`update`
semantics on the `calendar_events` table), and proves the reconciliation
properties stated about it.

Modelling conventions:
* TypeScript `string` is `String`; `x?: string` / nullable columns are
  `Option String`; JavaScript truthiness of a string (`if (s)`, `s || null`)
  is `s ≠ ""` on `String` and `jsTruthy` / `jsOrNull` on `Option String`.
* The database is a `Store` record holding the event rows, the field-mapping
  rows and the import-history rows as lists; SQL `SELECT ... WHERE p` with a
  destructuring `[row]` is `List.find?`, `UPDATE ... WHERE id = x` maps the
  row list, `INSERT` appends.  `randomUUID` is modelled by a fresh-id
  counter (`nextId`) since only distinctness of ids matters.
* drizzle `.set`/`.values` semantics: a property whose value is `undefined`
  is omitted (the column keeps its value on update, takes its default on
  insert); `null` stores NULL.  This distinction is kept explicitly where
  the source relies on it (the `field` column).
* Exceptions: in the source every store call inside the per-record `try` can
  throw, and the single write per record is the last store operation, so a
  failing record leaves the store unchanged by that record.  We model this
  with a fault oracle `faults : Nat → Option String` giving, per record
  index, the message of an injected exception (`none` = no exception).  The
  archival pass's `try` is modelled by an optional iteration budget
  `archiveFault : Option Nat`: `some k` means the pass throws after `k`
  loop iterations.
* `rawData`/`rawPayload`, `description`, `recurringGroupId` and timestamp
  columns are never read by the reconciliation logic and are omitted.
-/

namespace OrderPortal

/-- Closed enumeration of club squads in the source (`Team`); its values are
the string literals of the TypeScript union type. -/
abbrev Team := String

/-- Closed enumeration of physical venues (`Field`). -/
abbrev Field := String

/-- JS `String.prototype.toLowerCase` restricted to the ASCII range (the
only case folding exercised by this repository's data), mapped over the
characters of the string. -/
def jsToLowerCase (s : String) : String :=
  ⟨s.data.map Char.toLower⟩

/-- JS `String.prototype.trim`: strip leading and trailing whitespace. -/
def jsTrim (s : String) : String :=
  ⟨((s.data.dropWhile Char.isWhitespace).reverse.dropWhile
      Char.isWhitespace).reverse⟩

/-- JavaScript truthiness of an optional string: `undefined` and `""` are
falsy. -/
def jsTruthy : Option String → Bool
  | some s => s ≠ ""
  | none => false

/-- JavaScript `s || null` on an optional string, as used for nullable
columns: blank or absent becomes NULL (`none`). -/
def jsOrNull : Option String → Option String
  | some s => if s = "" then none else some s
  | none => none

/-- One row of the `calendar_events` table, restricted to the columns the
reconciliation engine reads or writes. -/
structure StoredEvent where
  id : Nat
  source : String
  externalId : Option String
  type : String
  title : String
  team : Option String
  teamHome : Option String
  teamAway : Option String
  field : Option Field
  date : String
  startTime : String
  endTime : String
  isHomeGame : Option Bool
  opponent : Option String
  location : Option String
  competition : Option String
  status : String
  deriving Repr, DecidableEq

/-- One row of the `field_mappings` table. -/
structure FieldMapping where
  team : Team
  eventType : String
  defaultField : Field
  deriving Repr, DecidableEq

/-- One row of the `bfv_import_history` table (audit only; never read back
by the reconciler). -/
structure ImportHistoryRecord where
  createdCount : Nat
  updatedCount : Nat
  unchangedCount : Nat
  archivedCount : Nat
  errorCount : Nat
  fileName : Option String
  notes : Option String
  deriving Repr, DecidableEq

/-- The persistent store as seen by the reconciler. -/
structure Store where
  events : List StoredEvent
  fieldMappings : List FieldMapping
  importHistory : List ImportHistoryRecord
  nextId : Nat
  deriving Repr, DecidableEq

/-- `ParsedBfvMatch` — the extractor's output record (source lines 14–27). -/
structure ParsedBfvMatch where
  externalId : String
  date : String
  startTime : String
  endTime : String
  teamHome : String
  teamAway : String
  team : Team
  isHomeGame : Bool
  opponent : String
  competition : String
  location : Option String
  deriving Repr, DecidableEq

/-- `BfvImportSummary` — the run summary returned to the caller. -/
structure BfvImportSummary where
  createdCount : Nat
  updatedCount : Nat
  unchangedCount : Nat
  archivedCount : Nat
  errorCount : Nat
  errors : List String
  deriving Repr, DecidableEq

/-- The all-zero summary `importBfvMatches` starts from. -/
def emptySummary : BfvImportSummary :=
  { createdCount := 0, updatedCount := 0, unchangedCount := 0
    archivedCount := 0, errorCount := 0, errors := [] }

/-- The app-level `CalendarEvent` shape, restricted to the attributes
`matchNeedsUpdate` and the update write actually use.  Both conversion
paths in the source (`dbEventToCalendarEvent` and the inline fallback
conversion) copy these attributes through unchanged from the row. -/
structure CalendarEvent where
  id : Nat
  date : String
  startTime : String
  endTime : String
  field : Option Field
  location : Option String
  competition : Option String
  deriving Repr, DecidableEq

/-- The relevant fragment of `dbEventToCalendarEvent` / the inline fallback
row conversion: nullable columns pass through as optionals. -/
def dbEventToCalendarEvent (e : StoredEvent) : CalendarEvent :=
  { id := e.id, date := e.date, startTime := e.startTime, endTime := e.endTime
    field := e.field, location := e.location, competition := e.competition }

/-- `generateMatchKey` (source lines 29–37): lowercases and trims the team
names, joins with `|`, and appends the lowercased/trimmed competition
segment only when the competition is truthy. -/
def generateMatchKey (teamHome teamAway date : String)
    (competition : Option String) : String :=
  let normalizedHome := jsTrim (jsToLowerCase teamHome)
  let normalizedAway := jsTrim (jsToLowerCase teamAway)
  let key := normalizedHome ++ "|" ++ normalizedAway ++ "|" ++ date
  if jsTruthy competition then
    key ++ "|" ++ jsTrim (jsToLowerCase (competition.getD ""))
  else
    key

/-- `generateExternalId` (source lines 39–44): the upstream id verbatim when
non-empty, else the content key. -/
def generateExternalId (m : ParsedBfvMatch) : String :=
  if m.externalId ≠ "" then m.externalId
  else generateMatchKey m.teamHome m.teamAway m.date (some m.competition)

/-- `dbStorage.getDefaultField` (dbStorage lines 350–361): first
field-mapping row matching (team, eventType), if any. -/
def getDefaultField (mappings : List FieldMapping) (team : Team)
    (eventType : String) : Option Field :=
  (mappings.find? (fun fm => fm.team == team && fm.eventType == eventType)).map
    (·.defaultField)

/-- `getDefaultFieldForTeam` (source lines 46–52): `undefined` for away
games, else the (team, "spiel") mapping. -/
def getDefaultFieldForTeam (mappings : List FieldMapping) (team : Team)
    (isHomeGame : Bool) : Option Field :=
  if !isHomeGame then none
  else getDefaultField mappings team "spiel"

/-- `x || "keiner"` on an optional string, used in change-diff labels. -/
def orKeiner (o : Option String) : String :=
  match o with
  | some s => if s = "" then "keiner" else s
  | none => "keiner"

/-- Result shape of `matchNeedsUpdate`. -/
structure UpdateCheck where
  needsUpdate : Bool
  changes : List String
  deriving Repr, DecidableEq

/-- `matchNeedsUpdate` (source lines 54–81): field-by-field diff of an
existing event against an incoming match; the field clause fires only when
a new field value is supplied, the location/competition clauses only when
the incoming value is truthy. -/
def matchNeedsUpdate (existing : CalendarEvent) (m : ParsedBfvMatch)
    (newField : Option Field) : UpdateCheck :=
  let changes : List String := []
  let changes := if existing.date ≠ m.date then
    changes ++ ["Datum: " ++ existing.date ++ " -> " ++ m.date] else changes
  let changes := if existing.startTime ≠ m.startTime then
    changes ++ ["Startzeit: " ++ existing.startTime ++ " -> " ++ m.startTime]
    else changes
  let changes := if existing.endTime ≠ m.endTime then
    changes ++ ["Endzeit: " ++ existing.endTime ++ " -> " ++ m.endTime]
    else changes
  let changes := match newField with
    | some f =>
      if existing.field ≠ some f then
        changes ++ ["Platz: " ++ orKeiner existing.field ++ " -> " ++ f]
      else changes
    | none => changes
  let changes := match m.location with
    | some loc =>
      if loc ≠ "" ∧ existing.location ≠ some loc then
        changes ++ ["Ort: " ++ orKeiner existing.location ++ " -> " ++ loc]
      else changes
    | none => changes
  let changes := if m.competition ≠ "" ∧ existing.competition ≠ some m.competition then
    changes ++ ["Wettbewerb: " ++ orKeiner existing.competition ++ " -> " ++ m.competition]
    else changes
  { needsUpdate := changes.length > 0, changes := changes }

/-- The WHERE clause of `getCalendarEventByBfvId` (dbStorage lines 151–162):
source BFV and the given external id (no status filter). -/
def byIdPred (externalId : String) (e : StoredEvent) : Bool :=
  e.source == "BFV" && e.externalId == some externalId

/-- The WHERE clause of the inline fallback query (source lines 113–120):
source BFV, matching home/away team names, ACTIVE status. -/
def fallbackPred (m : ParsedBfvMatch) (e : StoredEvent) : Bool :=
  e.source == "BFV" && e.teamHome == some m.teamHome &&
    e.teamAway == some m.teamAway && e.status == "ACTIVE"

/-- `getCalendarEventByBfvId` (dbStorage lines 151–162): first row with
source BFV and the given external id. -/
def findByBfvId (events : List StoredEvent) (externalId : String) :
    Option StoredEvent :=
  events.find? (byIdPred externalId)

/-- The inline fallback query (source lines 110–120): first matching row.
The content key computed on source line 109 is dead code — the query does
not use it, and in particular does not constrain the date. -/
def findFallback (events : List StoredEvent) (m : ParsedBfvMatch) :
    Option StoredEvent :=
  events.find? (fallbackPred m)

/-- The two-step resolution of source lines 106–142: primary lookup by
external id, then the fallback lookup only when that found nothing. -/
def resolveExisting (events : List StoredEvent) (m : ParsedBfvMatch) :
    Option StoredEvent :=
  match findByBfvId events (generateExternalId m) with
  | some e => some e
  | none => findFallback events m

/-- Title generation (source lines 150–152 and 178–180): both ternary
branches produce the same string. -/
def matchTitle (m : ParsedBfvMatch) : String :=
  m.teamHome ++ " vs " ++ m.teamAway

/-- The `UPDATE ... SET` of source lines 154–170 applied to one row.
drizzle omits properties whose value is `undefined`: when the match is a
home game and `defaultField` is `undefined`, the `field` column is not
written and keeps its stored value; an away game writes NULL. -/
def updatedRow (m : ParsedBfvMatch) (externalId : String)
    (defaultField : Option Field) (e : StoredEvent) : StoredEvent :=
  { e with
    externalId := some externalId
    title := matchTitle m
    date := m.date
    startTime := m.startTime
    endTime := m.endTime
    field := if m.isHomeGame then
        (match defaultField with | some f => some f | none => e.field)
      else none
    location := jsOrNull m.location
    competition := jsOrNull (some m.competition)
    teamHome := some m.teamHome
    teamAway := some m.teamAway }

/-- The `INSERT` of source lines 182–202.  On insert an `undefined` `field`
value leaves the column at its NULL default, so home-game-without-mapping
and away-game both store `none`. -/
def createdRow (id : Nat) (m : ParsedBfvMatch) (externalId : String)
    (defaultField : Option Field) : StoredEvent :=
  { id := id
    source := "BFV"
    externalId := some externalId
    type := "spiel"
    title := matchTitle m
    team := some m.team
    teamHome := some m.teamHome
    teamAway := some m.teamAway
    field := if m.isHomeGame then defaultField else none
    date := m.date
    startTime := m.startTime
    endTime := m.endTime
    isHomeGame := some m.isHomeGame
    opponent := some m.opponent
    location := jsOrNull m.location
    competition := jsOrNull (some m.competition)
    status := "ACTIVE" }

/-- One iteration of the per-record loop of `importBfvMatches` (source
lines 101–213), including the surrounding `try`/`catch`: `fault = some msg`
models an exception thrown by one of the record's store operations (all of
which precede any visible write taking effect, see the module comment).
The computed external id is added to the seen set before any throwing
operation, so it is tracked even for a failing record. -/
def importStep (store : Store) (seen : List String)
    (summary : BfvImportSummary) (m : ParsedBfvMatch) (fault : Option String) :
    Store × List String × BfvImportSummary :=
  let externalId := generateExternalId m
  let seen := externalId :: seen
  match fault with
  | some msg =>
      (store, seen,
        { summary with
          errorCount := summary.errorCount + 1
          errors := summary.errors ++
            ["Fehler bei " ++ m.teamHome ++ " vs " ++ m.teamAway ++ ": " ++ msg] })
  | none =>
    let existingEvent := resolveExisting store.events m
    let defaultField := getDefaultFieldForTeam store.fieldMappings m.team m.isHomeGame
    match existingEvent with
    | some existing =>
      let check := matchNeedsUpdate (dbEventToCalendarEvent existing) m defaultField
      if check.needsUpdate then
        ({ store with
            events := store.events.map (fun e =>
              if e.id == existing.id then updatedRow m externalId defaultField e else e) },
          seen, { summary with updatedCount := summary.updatedCount + 1 })
      else
        (store, seen, { summary with unchangedCount := summary.unchangedCount + 1 })
    | none =>
      ({ store with
          events := store.events ++ [createdRow store.nextId m externalId defaultField]
          nextId := store.nextId + 1 },
        seen, { summary with createdCount := summary.createdCount + 1 })

/-- The `for (const match of matches)` loop, threading store, seen set and
summary; `i` is the index used to consult the fault oracle. -/
def importLoop (faults : Nat → Option String) :
    Store → List String → BfvImportSummary → Nat → List ParsedBfvMatch →
    Store × List String × BfvImportSummary
  | store, seen, summary, _, [] => (store, seen, summary)
  | store, seen, summary, i, m :: rest =>
      let r := importStep store seen summary m (faults i)
      importLoop faults r.1 r.2.1 r.2.2 (i + 1) rest

/-- The WHERE clause of `getBfvEventIds` (dbStorage lines 309–314): source
BFV, ACTIVE status. -/
def activeBfvPred (e : StoredEvent) : Bool :=
  e.source == "BFV" && e.status == "ACTIVE"

/-- `getBfvEventIds` (dbStorage lines 305–318): the non-null external ids of
all ACTIVE BFV rows, in row order. -/
def getBfvEventIds (events : List StoredEvent) : List String :=
  (events.filter activeBfvPred).filterMap (·.externalId)

/-- The WHERE clause of the archival-pass select (source lines 223–229):
the given external id, source BFV, ACTIVE status. -/
def archivePred (existingId : String) (e : StoredEvent) : Bool :=
  e.externalId == some existingId && e.source == "BFV" && e.status == "ACTIVE"

/-- One iteration of the archival loop body (source lines 218–239): skip ids
in the seen set, otherwise select the first ACTIVE BFV row with that
external id and set its status to ARCHIVED; the returned flag reports
whether an archival (and counter increment) happened. -/
def archiveStep (seen : List String) (store : Store) (existingId : String) :
    Store × Bool :=
  if seen.contains existingId then (store, false)
  else
    match store.events.find? (archivePred existingId) with
    | some event =>
        ({ store with
            events := store.events.map (fun e =>
              if e.id == event.id then { e with status := "ARCHIVED" } else e) },
          true)
    | none => (store, false)

/-- The archival pass loop (source lines 215–243).  `budget = some k` models
the surrounding `try` catching an exception after `k` completed iterations;
`none` means the pass runs to completion. -/
def archiveLoop (seen : List String) :
    Store → BfvImportSummary → List String → Option Nat → Store × BfvImportSummary
  | store, summary, [], _ => (store, summary)
  | store, summary, _ :: _, some 0 => (store, summary)
  | store, summary, id :: rest, budget =>
      let r := archiveStep seen store id
      archiveLoop seen r.1
        (if r.2 then { summary with archivedCount := summary.archivedCount + 1 }
          else summary)
        rest (budget.map (· - 1))

/-- `createImportHistory` (source lines 245–253, dbStorage lines 408–415):
append one audit row built from the summary. -/
def appendHistory (store : Store) (summary : BfvImportSummary)
    (fileName : Option String) : Store :=
  { store with
    importHistory := store.importHistory ++
      [{ createdCount := summary.createdCount
         updatedCount := summary.updatedCount
         unchangedCount := summary.unchangedCount
         archivedCount := summary.archivedCount
         errorCount := summary.errorCount
         fileName := jsOrNull fileName
         notes := if summary.errors ≠ [] then
             some (String.intercalate "\n" summary.errors)
           else none }] }

/-- `importBfvMatches` (source lines 83–258): per-record loop, optional
best-effort archival pass (only when requested and at least one external id
was seen), then the audit row; returns the final store and the summary. -/
def importBfvMatches (store : Store) (matchList : List ParsedBfvMatch)
    (fileName : Option String) (archiveMissing : Bool)
    (faults : Nat → Option String) (archiveFault : Option Nat) :
    Store × BfvImportSummary :=
  let r := importLoop faults store [] emptySummary 0 matchList
  let ar :=
    if archiveMissing && !r.2.1.isEmpty then
      archiveLoop r.2.1 r.1 r.2.2 (getBfvEventIds r.1.events) archiveFault
    else (r.1, r.2.2)
  (appendHistory ar.1 ar.2 fileName, ar.2)

/-- The no-exception fault oracle. -/
def noFaults : Nat → Option String := fun _ => none

/-! ### Derived notions used to state the claims -/

/-- A record resolves against a row when either the primary-id predicate or
the fallback predicate accepts it. -/
def resolveHit (m : ParsedBfvMatch) (e : StoredEvent) : Bool :=
  byIdPred (generateExternalId m) e || fallbackPred m e

/-- Two parsed matches denote distinct fixtures: their generated external
ids differ and their (teamHome, teamAway) pairs differ, so neither can
resolve to a row belonging to the other. -/
def DistinctFixtures (a b : ParsedBfvMatch) : Prop :=
  generateExternalId a ≠ generateExternalId b ∧
    (a.teamHome ≠ b.teamHome ∨ a.teamAway ≠ b.teamAway)

/-- The rows a create-only run appends for a batch, with ids counting up
from `n`. -/
def createdEvents (mappings : List FieldMapping) :
    Nat → List ParsedBfvMatch → List StoredEvent
  | _, [] => []
  | n, m :: rest =>
      createdRow n m (generateExternalId m)
          (getDefaultFieldForTeam mappings m.team m.isHomeGame) ::
        createdEvents mappings (n + 1) rest

/-- A row the archival pass must archive: ACTIVE, source BFV, with a
non-null external id outside the seen set. -/
def archiveTargeted (seen : List String) (e : StoredEvent) : Bool :=
  activeBfvPred e &&
    (match e.externalId with
     | some id => !seen.contains id
     | none => false)

/-- The net effect of a completed archival pass on the event rows. -/
def archiveAll (seen : List String) (events : List StoredEvent) :
    List StoredEvent :=
  events.map (fun e =>
    if archiveTargeted seen e then { e with status := "ARCHIVED" } else e)

/-- Store well-formedness: row ids are pairwise distinct (the primary key of
`calendar_events`) and below the fresh-id counter (freshness of
`randomUUID`). -/
def WellFormedStore (s : Store) : Prop :=
  (s.events.map (·.id)).Nodup ∧ ∀ e ∈ s.events, e.id < s.nextId

/-- Remove every whitespace character, used to state what "two strings
differ only in whitespace" means. -/
def stripWhitespace (s : String) : String :=
  ⟨s.data.filter (fun c => !c.isWhitespace)⟩

/-- Two strings differ only in letter case or whitespace. -/
def caseWsAgnosticEq (s t : String) : Prop :=
  stripWhitespace (jsToLowerCase s) = stripWhitespace (jsToLowerCase t)

/-! ### Concrete inputs for counterexamples and witnesses -/

/-- The empty store. -/
def emptyStore : Store :=
  { events := [], fieldMappings := [], importHistory := [], nextId := 0 }

/-- The end-to-end example match of the specification. -/
def exampleMatch : ParsedBfvMatch :=
  { externalId := "", date := "2026-03-01", startTime := "15:00"
    endTime := "17:00", teamHome := "SV A", teamAway := "Club"
    team := "herren", isHomeGame := true, opponent := "SV A"
    competition := "Kreisliga", location := none }

/-- A batch record with a fixed upstream id. -/
def conflictMatchA : ParsedBfvMatch :=
  { externalId := "x", date := "2026-03-01", startTime := "10:00"
    endTime := "12:00", teamHome := "H", teamAway := "A", team := "herren"
    isHomeGame := false, opponent := "H", competition := "", location := none }

/-- A second record with the same upstream id but a different kick-off. -/
def conflictMatchB : ParsedBfvMatch :=
  { conflictMatchA with startTime := "12:00", endTime := "14:00" }

/-- A stored active BFV event whose upstream id later churns. -/
def churnEvent : StoredEvent :=
  { id := 0, source := "BFV", externalId := some "old", type := "spiel"
    title := "H vs A", team := some "herren", teamHome := some "H"
    teamAway := some "A", field := none, date := "2026-03-01"
    startTime := "10:00", endTime := "12:00", isHomeGame := some false
    opponent := some "H", location := none, competition := none
    status := "ACTIVE" }

/-- A store containing only `churnEvent`. -/
def churnStore : Store :=
  { events := [churnEvent], fieldMappings := [], importHistory := []
    nextId := 1 }

/-- The same fixture as `churnEvent`, re-delivered under a new upstream id
and otherwise unchanged. -/
def churnMatch : ParsedBfvMatch :=
  { externalId := "new", date := "2026-03-01", startTime := "10:00"
    endTime := "12:00", teamHome := "H", teamAway := "A", team := "herren"
    isHomeGame := false, opponent := "H", competition := "", location := none }

/-- A fault oracle that makes every record throw with message "boom". -/
def boomFaults : Nat → Option String := fun _ => some "boom"

/-- The app-level view of `churnEvent`, used to instantiate change-detector
statements. -/
def churnCalendarEvent : CalendarEvent := dbEventToCalendarEvent churnEvent

/-- `churnEvent` with a venue assigned (by a manual edit, say). -/
def fieldedEvent : StoredEvent := { churnEvent with field := some "a-platz" }

/-- A store containing only `fieldedEvent`. -/
def fieldedStore : Store := { churnStore with events := [fieldedEvent] }

/-- A home-game re-delivery of the stored fixture with a moved kick-off,
keeping the stored upstream id. -/
def homeChurnMatch : ParsedBfvMatch :=
  { churnMatch with
    externalId := "old"
    isHomeGame := true
    startTime := "11:00" }

/-- The per-record phase of a run: the loop applied to the batch from the
initial seen set and summary, exactly as `importBfvMatches` invokes it. -/
def recordPhase (store : Store) (ms : List ParsedBfvMatch)
    (faults : Nat → Option String) : Store × List String × BfvImportSummary :=
  importLoop faults store [] emptySummary 0 ms

/-!
## Theorems
-/

/-- Unfolding: the archival loop with a non-exhausted budget performs one
step and recurses. -/
theorem archiveLoop_cons (seen : List String) (store : Store)
    (summary : BfvImportSummary) (id : String) (rest : List String)
    (budget : Option Nat) (h : budget ≠ some 0) :
    archiveLoop seen store summary (id :: rest) budget =
      archiveLoop seen (archiveStep seen store id).1
        (if (archiveStep seen store id).2 then
          { summary with archivedCount := summary.archivedCount + 1 }
         else summary)
        rest (budget.map (· - 1)) := by
  match budget with
  | none => rfl
  | some 0 => exact absurd rfl h
  | some (k + 1) => rfl

/-- Helper: one record adds exactly one to the sum of the four outcome
counters. -/
theorem importStep_counts (store : Store) (seen : List String)
    (summary : BfvImportSummary) (m : ParsedBfvMatch) (fault : Option String) :
    (importStep store seen summary m fault).2.2.createdCount +
        (importStep store seen summary m fault).2.2.updatedCount +
        (importStep store seen summary m fault).2.2.unchangedCount +
        (importStep store seen summary m fault).2.2.errorCount =
      summary.createdCount + summary.updatedCount + summary.unchangedCount +
        summary.errorCount + 1 := by
  cases fault with
  | some msg =>
    simp [importStep]
    omega
  | none =>
    cases hres : resolveExisting store.events m with
    | some e =>
      by_cases hnu : (matchNeedsUpdate (dbEventToCalendarEvent e) m
          (getDefaultFieldForTeam store.fieldMappings m.team
            m.isHomeGame)).needsUpdate = true
      · simp [importStep, hres, hnu]
        omega
      · simp only [Bool.not_eq_true] at hnu
        simp [importStep, hres, hnu]
        omega
    | none =>
      simp [importStep, hres]
      omega

/-- Helper: over a whole batch, the four outcome counters sum to the
previous sum plus the batch length. -/
theorem importLoop_counts (faults : Nat → Option String)
    (ms : List ParsedBfvMatch) :
    ∀ (store : Store) (seen : List String) (summary : BfvImportSummary)
      (i : Nat),
    (importLoop faults store seen summary i ms).2.2.createdCount +
        (importLoop faults store seen summary i ms).2.2.updatedCount +
        (importLoop faults store seen summary i ms).2.2.unchangedCount +
        (importLoop faults store seen summary i ms).2.2.errorCount =
      summary.createdCount + summary.updatedCount + summary.unchangedCount +
        summary.errorCount + ms.length := by
  induction ms with
  | nil =>
    intro store seen summary i
    simp [importLoop]
  | cons m rest ih =>
    intro store seen summary i
    simp only [importLoop]
    have h1 := importStep_counts store seen summary m (faults i)
    have h2 := ih (importStep store seen summary m (faults i)).1
      (importStep store seen summary m (faults i)).2.1
      (importStep store seen summary m (faults i)).2.2 (i + 1)
    simp only [List.length_cons]
    omega

/-- Helper: the archival loop changes only `archivedCount`; the other four
counters and the error list pass through. -/
theorem archiveLoop_other_counts (seen : List String) (ids : List String) :
    ∀ (store : Store) (summary : BfvImportSummary) (budget : Option Nat),
    (archiveLoop seen store summary ids budget).2.createdCount =
        summary.createdCount ∧
      (archiveLoop seen store summary ids budget).2.updatedCount =
        summary.updatedCount ∧
      (archiveLoop seen store summary ids budget).2.unchangedCount =
        summary.unchangedCount ∧
      (archiveLoop seen store summary ids budget).2.errorCount =
        summary.errorCount ∧
      (archiveLoop seen store summary ids budget).2.errors = summary.errors := by
  induction ids with
  | nil =>
    intro store summary budget
    simp [archiveLoop]
  | cons id rest ih =>
    intro store summary budget
    by_cases hb : budget = some 0
    · subst hb
      simp [archiveLoop]
    · rw [archiveLoop_cons seen store summary id rest budget hb]
      have h := ih (archiveStep seen store id).1
        (if (archiveStep seen store id).2 then
          { summary with archivedCount := summary.archivedCount + 1 }
         else summary)
        (budget.map (· - 1))
      cases hstep : (archiveStep seen store id).2 <;> simp [hstep] at h <;>
        exact h

/-- **C9** Count partition: every record of a batch contributes to exactly
one of `createdCount`, `updatedCount`, `unchangedCount`, `errorCount`, so
the four counters of the returned summary sum to the batch size — for every
store, fault assignment, and `archiveMissing` flag. -/
theorem count_partition (store : Store) (ms : List ParsedBfvMatch)
    (fn : Option String) (archiveMissing : Bool)
    (faults : Nat → Option String) (af : Option Nat) :
    (importBfvMatches store ms fn archiveMissing faults af).2.createdCount +
        (importBfvMatches store ms fn archiveMissing faults af).2.updatedCount +
        (importBfvMatches store ms fn archiveMissing faults af).2.unchangedCount +
        (importBfvMatches store ms fn archiveMissing faults af).2.errorCount =
      ms.length := by
  have hloop := importLoop_counts faults ms store [] emptySummary 0
  simp only [importBfvMatches]
  by_cases hcond : (archiveMissing &&
      !(importLoop faults store [] emptySummary 0 ms).2.1.isEmpty) = true
  · simp only [hcond, if_true]
    have harch := archiveLoop_other_counts
      (importLoop faults store [] emptySummary 0 ms).2.1
      (getBfvEventIds (importLoop faults store [] emptySummary 0 ms).1.events)
      (importLoop faults store [] emptySummary 0 ms).1
      (importLoop faults store [] emptySummary 0 ms).2.2 af
    have h0c : emptySummary.createdCount = 0 := rfl
    have h0u : emptySummary.updatedCount = 0 := rfl
    have h0n : emptySummary.unchangedCount = 0 := rfl
    have h0e : emptySummary.errorCount = 0 := rfl
    omega
  · simp only [Bool.not_eq_true] at hcond
    simp only [hcond, Bool.false_eq_true, if_false]
    have h0c : emptySummary.createdCount = 0 := rfl
    have h0u : emptySummary.updatedCount = 0 := rfl
    have h0n : emptySummary.unchangedCount = 0 := rfl
    have h0e : emptySummary.errorCount = 0 := rfl
    omega

/-- Helper: a record step never touches `archivedCount`. -/
theorem importStep_archivedCount (store : Store) (seen : List String)
    (summary : BfvImportSummary) (m : ParsedBfvMatch) (fault : Option String) :
    (importStep store seen summary m fault).2.2.archivedCount =
      summary.archivedCount := by
  cases fault with
  | some msg => simp [importStep]
  | none =>
    cases hres : resolveExisting store.events m with
    | some e =>
      by_cases hnu : (matchNeedsUpdate (dbEventToCalendarEvent e) m
          (getDefaultFieldForTeam store.fieldMappings m.team
            m.isHomeGame)).needsUpdate = true
      · simp [importStep, hres, hnu]
      · simp only [Bool.not_eq_true] at hnu
        simp [importStep, hres, hnu]
    | none => simp [importStep, hres]

/-- Helper: the per-record loop never touches `archivedCount`. -/
theorem importLoop_archivedCount (faults : Nat → Option String)
    (ms : List ParsedBfvMatch) :
    ∀ (store : Store) (seen : List String) (summary : BfvImportSummary)
      (i : Nat),
    (importLoop faults store seen summary i ms).2.2.archivedCount =
      summary.archivedCount := by
  induction ms with
  | nil =>
    intro store seen summary i
    simp [importLoop]
  | cons m rest ih =>
    intro store seen summary i
    simp only [importLoop]
    rw [ih]
    exact importStep_archivedCount store seen summary m (faults i)

/-- Helper: every record adds exactly one id to the seen set, errors
included. -/
theorem importLoop_seen_length (faults : Nat → Option String)
    (ms : List ParsedBfvMatch) :
    ∀ (store : Store) (seen : List String) (summary : BfvImportSummary)
      (i : Nat),
    (importLoop faults store seen summary i ms).2.1.length =
      seen.length + ms.length := by
  induction ms with
  | nil =>
    intro store seen summary i
    simp [importLoop]
  | cons m rest ih =>
    intro store seen summary i
    simp only [importLoop]
    rw [ih]
    have hstep : (importStep store seen summary m (faults i)).2.1.length =
        seen.length + 1 := by
      cases hf : faults i with
      | some msg => simp [importStep]
      | none =>
        cases hres : resolveExisting store.events m with
        | some e =>
          by_cases hnu : (matchNeedsUpdate (dbEventToCalendarEvent e) m
              (getDefaultFieldForTeam store.fieldMappings m.team
                m.isHomeGame)).needsUpdate = true
          · simp [importStep, hres, hnu]
          · simp only [Bool.not_eq_true] at hnu
            simp [importStep, hres, hnu]
        | none => simp [importStep, hres]
    rw [hstep]
    simp
    omega

/-- Helper: one record step preserves store well-formedness (distinct row
ids below the fresh-id counter). -/
theorem importStep_wf (store : Store) (seen : List String)
    (summary : BfvImportSummary) (m : ParsedBfvMatch) (fault : Option String)
    (h : WellFormedStore store) :
    WellFormedStore (importStep store seen summary m fault).1 := by
  obtain ⟨hnd, hlt⟩ := h
  cases fault with
  | some msg => exact ⟨by simpa [importStep] using hnd,
      by simpa [importStep] using hlt⟩
  | none =>
    cases hres : resolveExisting store.events m with
    | some e =>
      by_cases hnu : (matchNeedsUpdate (dbEventToCalendarEvent e) m
          (getDefaultFieldForTeam store.fieldMappings m.team
            m.isHomeGame)).needsUpdate = true
      · constructor
        · simp only [importStep, hres, hnu, if_true]
          rw [List.map_map]
          have : ∀ x ∈ store.events,
              ((fun ev => ev.id) ∘ (fun ev =>
                if ev.id == e.id then
                  updatedRow m (generateExternalId m)
                    (getDefaultFieldForTeam store.fieldMappings m.team
                      m.isHomeGame) ev
                else ev)) x = x.id := by
            intro x _
            by_cases hid : (x.id == e.id) = true <;>
              simp [Function.comp, hid, updatedRow]
          rw [List.map_congr_left this]
          exact hnd
        · intro x hx
          simp only [importStep, hres, hnu, if_true] at hx ⊢
          rcases List.mem_map.mp hx with ⟨y, hy, rfl⟩
          have hid : (if y.id == e.id then
              updatedRow m (generateExternalId m)
                (getDefaultFieldForTeam store.fieldMappings m.team
                  m.isHomeGame) y
            else y).id = y.id := by
            by_cases hid : (y.id == e.id) = true <;> simp [hid, updatedRow]
          rw [hid]
          exact hlt y hy
      · simp only [Bool.not_eq_true] at hnu
        exact ⟨by simpa [importStep, hres, hnu] using hnd,
          by simpa [importStep, hres, hnu] using hlt⟩
    | none =>
      constructor
      · simp only [importStep, hres, List.map_append, List.map_cons,
          List.map_nil]
        rw [List.nodup_append]
        refine ⟨hnd, List.nodup_singleton _, ?_⟩
        intro a ha hb
        have h1 : a < store.nextId := by
          rcases List.mem_map.mp ha with ⟨y, hy, rfl⟩
          exact hlt y hy
        have h2 : a = (createdRow store.nextId m (generateExternalId m)
            (getDefaultFieldForTeam store.fieldMappings m.team
              m.isHomeGame)).id := by
          simpa using hb
        rw [show (createdRow store.nextId m (generateExternalId m)
            (getDefaultFieldForTeam store.fieldMappings m.team
              m.isHomeGame)).id = store.nextId from rfl] at h2
        omega
      · intro x hx
        simp only [importStep, hres] at hx ⊢
        rcases List.mem_append.mp hx with hx | hx
        · exact Nat.lt_succ_of_lt (hlt x hx)
        · rw [List.mem_singleton.mp hx]
          exact Nat.lt_succ_self _

/-- Helper: the per-record loop preserves store well-formedness. -/
theorem importLoop_wf (faults : Nat → Option String)
    (ms : List ParsedBfvMatch) :
    ∀ (store : Store) (seen : List String) (summary : BfvImportSummary)
      (i : Nat), WellFormedStore store →
    WellFormedStore (importLoop faults store seen summary i ms).1 := by
  induction ms with
  | nil =>
    intro store seen summary i h
    simpa [importLoop] using h
  | cons m rest ih =>
    intro store seen summary i h
    simp only [importLoop]
    exact ih _ _ _ _ (importStep_wf store seen summary m (faults i) h)

/-- Helper: a row the archival pass would not target cannot satisfy the
archival select predicate for an unseen id. -/
theorem archivePred_of_targeted_false {seen : List String} {p : StoredEvent}
    (id : String) (hp : archiveTargeted seen p = false)
    (hseen : seen.contains id = false) : archivePred id p = false := by
  by_contra h
  rw [Bool.not_eq_false] at h
  simp only [archivePred, Bool.and_eq_true, beq_iff_eq] at h
  obtain ⟨⟨h1, h2⟩, h3⟩ := h
  have hmem : id ∈ seen := by
    simpa [archiveTargeted, activeBfvPred, h1, h2, h3] using hp
  have : id ∉ seen := by simpa using hseen
  exact this hmem

/-- Helper: with pairwise-distinct row ids, the archival UPDATE touches
exactly the selected row. -/
theorem archive_map_single (pre rest : List StoredEvent) (e : StoredEvent)
    (hnodup : ((pre ++ e :: rest).map (·.id)).Nodup) :
    (pre ++ e :: rest).map (fun x =>
        if x.id == e.id then { x with status := "ARCHIVED" } else x) =
      pre ++ { e with status := "ARCHIVED" } :: rest := by
  rw [List.map_append, List.map_cons] at hnodup ⊢
  rw [List.nodup_append] at hnodup
  obtain ⟨hpre, hcons, hdisj⟩ := hnodup
  have h2 : e.id ∉ rest.map (·.id) := (List.nodup_cons.mp hcons).1
  have h1 : e.id ∉ pre.map (·.id) := by
    intro hmem
    exact hdisj hmem (List.mem_cons_self _ _)
  congr 1
  · refine (List.map_congr_left ?_).trans (List.map_id _)
    intro x hx
    have : x.id ≠ e.id := by
      intro hxe
      exact h1 (hxe ▸ List.mem_map_of_mem (·.id) hx)
    simp [this]
  · rw [show (e.id == e.id) = true from beq_self_eq_true e.id]
    simp only [if_true]
    congr 1
    refine (List.map_congr_left ?_).trans (List.map_id _)
    intro x hx
    have : x.id ≠ e.id := by
      intro hxe
      exact h2 (hxe ▸ List.mem_map_of_mem (·.id) hx)
    simp [this]

/-- Helper: full characterization of a completed archival pass — rows in
`pre` are never selected, every targeted row of `post` is archived, and the
counter is bumped once per targeted row. -/
theorem archiveLoop_go (seen : List String) (post : List StoredEvent) :
    ∀ (pre : List StoredEvent) (mp : List FieldMapping)
      (hist : List ImportHistoryRecord) (n : Nat)
      (summary : BfvImportSummary),
    ((pre ++ post).map (·.id)).Nodup →
    (∀ p ∈ pre, archiveTargeted seen p = false) →
    archiveLoop seen ⟨pre ++ post, mp, hist, n⟩ summary
        (getBfvEventIds post) none =
      (⟨pre ++ archiveAll seen post, mp, hist, n⟩,
        { summary with archivedCount :=
            summary.archivedCount +
              (post.filter (archiveTargeted seen)).length }) := by
  induction post with
  | nil =>
    intro pre mp hist n summary _ _
    simp [getBfvEventIds, archiveLoop, archiveAll]
  | cons e rest ih =>
    intro pre mp hist n summary hnodup hpre
    have hnodup' : (((pre ++ [e]) ++ rest).map (·.id)).Nodup := by
      rw [List.append_assoc, List.singleton_append]
      exact hnodup
    by_cases hact : activeBfvPred e = true
    · cases hext : e.externalId with
      | none =>
        have htgt : archiveTargeted seen e = false := by
          simp [archiveTargeted, hext]
        have hids : getBfvEventIds (e :: rest) = getBfvEventIds rest := by
          simp [getBfvEventIds, List.filter_cons, hact, List.filterMap_cons,
            hext]
        rw [hids,
          show pre ++ e :: rest = (pre ++ [e]) ++ rest by simp]
        rw [ih (pre ++ [e]) mp hist n summary hnodup'
          (fun p hp => by
            rcases List.mem_append.mp hp with hp | hp
            · exact hpre p hp
            · rw [List.mem_singleton.mp hp]; exact htgt)]
        have hevents : (pre ++ [e]) ++ archiveAll seen rest =
            pre ++ archiveAll seen (e :: rest) := by
          rw [show archiveAll seen (e :: rest) = e :: archiveAll seen rest
            from by simp [archiveAll, htgt]]
          simp
        have hsum : (rest.filter (archiveTargeted seen)).length =
            ((e :: rest).filter (archiveTargeted seen)).length := by
          rw [List.filter_cons, if_neg (by simp [htgt])]
        rw [hevents, hsum]
      | some id =>
        have hids : getBfvEventIds (e :: rest) = id :: getBfvEventIds rest := by
          simp [getBfvEventIds, List.filter_cons, hact, List.filterMap_cons,
            hext]
        rw [hids]
        by_cases hseen : seen.contains id = true
        · have hmem : id ∈ seen := by simpa using hseen
          have htgt : archiveTargeted seen e = false := by
            simp [archiveTargeted, hext, hmem]
          rw [archiveLoop_cons seen _ summary id _ none (by simp)]
          have hstep : archiveStep seen ⟨pre ++ e :: rest, mp, hist, n⟩ id =
              (⟨pre ++ e :: rest, mp, hist, n⟩, false) := by
            simp [archiveStep, hmem]
          rw [hstep]
          dsimp only
          rw [if_neg Bool.false_ne_true]
          simp only [Option.map_none']
          rw [show pre ++ e :: rest = (pre ++ [e]) ++ rest by simp]
          rw [ih (pre ++ [e]) mp hist n summary hnodup'
            (fun p hp => by
              rcases List.mem_append.mp hp with hp | hp
              · exact hpre p hp
              · rw [List.mem_singleton.mp hp]; exact htgt)]
          have hevents : (pre ++ [e]) ++ archiveAll seen rest =
              pre ++ archiveAll seen (e :: rest) := by
            rw [show archiveAll seen (e :: rest) = e :: archiveAll seen rest
              from by simp [archiveAll, htgt]]
            simp
          have hsum : (rest.filter (archiveTargeted seen)).length =
              ((e :: rest).filter (archiveTargeted seen)).length := by
            rw [List.filter_cons, if_neg (by simp [htgt])]
          rw [hevents, hsum]
        · have hseenF : seen.contains id = false := by simpa using hseen
          have hnmem : id ∉ seen := by simpa using hseenF
          have htgt : archiveTargeted seen e = true := by
            simp [archiveTargeted, hact, hext, hnmem]
          have hfind : (pre ++ e :: rest).find? (archivePred id) = some e := by
            rw [List.find?_append]
            have hpreF : pre.find? (archivePred id) = none :=
              List.find?_eq_none.mpr (fun p hp => by
                have := archivePred_of_targeted_false id (hpre p hp) hseenF
                simp [this])
            rw [hpreF]
            simp only [Option.none_or]
            refine List.find?_cons_of_pos _ ?_
            simp only [activeBfvPred, Bool.and_eq_true, beq_iff_eq] at hact
            simp [archivePred, hext, hact.1, hact.2]
          have hstep : archiveStep seen ⟨pre ++ e :: rest, mp, hist, n⟩ id =
              (⟨pre ++ ({ e with status := "ARCHIVED" } : StoredEvent) :: rest,
                  mp, hist, n⟩,
                true) := by
            simp only [archiveStep, hseenF, Bool.false_eq_true, if_false]
            rw [hfind]
            dsimp only
            rw [archive_map_single pre rest e hnodup]
          rw [archiveLoop_cons seen _ summary id _ none (by simp)]
          rw [hstep]
          dsimp only
          rw [if_pos rfl]
          simp only [Option.map_none']
          have htgtA : archiveTargeted seen
              ({ e with status := "ARCHIVED" } : StoredEvent) = false := by
            simp [archiveTargeted, activeBfvPred]
          have hnodupA : (((pre ++ [({ e with status := "ARCHIVED" } :
              StoredEvent)]) ++ rest).map (·.id)).Nodup := by
            rw [List.append_assoc, List.singleton_append]
            have heq : ((pre ++ ({ e with status := "ARCHIVED" } :
                StoredEvent) :: rest).map (·.id)) =
                ((pre ++ e :: rest).map (·.id)) := by
              simp
            rw [heq]
            exact hnodup
          rw [show pre ++ ({ e with status := "ARCHIVED" } : StoredEvent) ::
            rest = (pre ++ [({ e with status := "ARCHIVED" } : StoredEvent)])
            ++ rest by simp]
          rw [ih (pre ++ [({ e with status := "ARCHIVED" } : StoredEvent)])
            mp hist n
            { summary with archivedCount := summary.archivedCount + 1 }
            hnodupA
            (fun p hp => by
              rcases List.mem_append.mp hp with hp | hp
              · exact hpre p hp
              · rw [List.mem_singleton.mp hp]; exact htgtA)]
          have hevents : (pre ++ [({ e with status := "ARCHIVED" } :
              StoredEvent)]) ++ archiveAll seen rest =
              pre ++ archiveAll seen (e :: rest) := by
            rw [show archiveAll seen (e :: rest) =
              ({ e with status := "ARCHIVED" } : StoredEvent) ::
                archiveAll seen rest
              from by simp [archiveAll, htgt]]
            simp
          have hsum : summary.archivedCount + 1 +
              (rest.filter (archiveTargeted seen)).length =
              summary.archivedCount +
                ((e :: rest).filter (archiveTargeted seen)).length := by
            rw [List.filter_cons, if_pos htgt, List.length_cons]
            omega
          rw [hevents]
          dsimp only
          rw [hsum]
    · have htgt : archiveTargeted seen e = false := by
        simp [archiveTargeted, hact]
      have hids : getBfvEventIds (e :: rest) = getBfvEventIds rest := by
        simp [getBfvEventIds, List.filter_cons, hact]
      rw [hids,
        show pre ++ e :: rest = (pre ++ [e]) ++ rest by simp]
      rw [ih (pre ++ [e]) mp hist n summary hnodup'
        (fun p hp => by
          rcases List.mem_append.mp hp with hp | hp
          · exact hpre p hp
          · rw [List.mem_singleton.mp hp]; exact htgt)]
      have hevents : (pre ++ [e]) ++ archiveAll seen rest =
          pre ++ archiveAll seen (e :: rest) := by
        rw [show archiveAll seen (e :: rest) = e :: archiveAll seen rest
          from by simp [archiveAll, htgt]]
        simp
      have hsum : (rest.filter (archiveTargeted seen)).length =
          ((e :: rest).filter (archiveTargeted seen)).length := by
        rw [List.filter_cons, if_neg (by simp [htgt])]
      rw [hevents, hsum]

/-- Helper: re-delivering a match against its own created row produces no
change entries. -/
theorem createdRow_no_changes (mappings : List FieldMapping) (k : Nat)
    (m : ParsedBfvMatch) :
    matchNeedsUpdate
      (dbEventToCalendarEvent (createdRow k m (generateExternalId m)
        (getDefaultFieldForTeam mappings m.team m.isHomeGame))) m
      (getDefaultFieldForTeam mappings m.team m.isHomeGame) =
      { needsUpdate := false, changes := [] } := by
  cases hb : m.isHomeGame with
  | false =>
    have hdf : getDefaultFieldForTeam mappings m.team false = none := rfl
    simp only [hb, hdf, matchNeedsUpdate, dbEventToCalendarEvent, createdRow,
      jsOrNull]
    cases hloc : m.location with
    | none =>
      by_cases hc : m.competition = "" <;> simp [hc]
    | some loc =>
      by_cases hl : loc = "" <;> by_cases hc : m.competition = "" <;>
        simp [hl, hc]
  | true =>
    have hdf : getDefaultFieldForTeam mappings m.team true =
        getDefaultField mappings m.team "spiel" := rfl
    simp only [hb, hdf, matchNeedsUpdate, dbEventToCalendarEvent, createdRow,
      jsOrNull]
    cases hmap : getDefaultField mappings m.team "spiel" with
    | none =>
      cases hloc : m.location with
      | none =>
        by_cases hc : m.competition = "" <;> simp [hc]
      | some loc =>
        by_cases hl : loc = "" <;> by_cases hc : m.competition = "" <;>
          simp [hl, hc]
    | some f =>
      cases hloc : m.location with
      | none =>
        by_cases hc : m.competition = "" <;> simp [hc]
      | some loc =>
        by_cases hl : loc = "" <;> by_cases hc : m.competition = "" <;>
          simp [hl, hc]

/-- Helper: a created row of one fixture is never hit by the resolution of
a distinct fixture. -/
theorem createdRow_not_hit (m m' : ParsedBfvMatch) (n : Nat)
    (df : Option Field) (h : DistinctFixtures m m') :
    resolveHit m' (createdRow n m (generateExternalId m) df) = false := by
  obtain ⟨h1, h2⟩ := h
  rcases h2 with h2 | h2 <;>
    simp [resolveHit, byIdPred, fallbackPred, createdRow, h1, h2]

/-- Helper: a created row is found by its own primary-id lookup. -/
theorem createdRow_hit_self (m : ParsedBfvMatch) (n : Nat)
    (df : Option Field) :
    byIdPred (generateExternalId m) (createdRow n m (generateExternalId m)
      df) = true := by
  simp [byIdPred, createdRow]

/-- Helper: a batch of pairwise-distinct fixtures, none of which resolves
against the current events, is created wholesale: one fresh row per record,
in order, and `createdCount` grows by the batch length. -/
theorem importLoop_all_create (mappings : List FieldMapping)
    (ms : List ParsedBfvMatch) :
    ∀ (es : List StoredEvent) (hist : List ImportHistoryRecord) (n : Nat)
      (seen : List String) (summary : BfvImportSummary) (i : Nat),
    (∀ m ∈ ms, ∀ e ∈ es, resolveHit m e = false) →
    ms.Pairwise DistinctFixtures →
    (importLoop noFaults ⟨es, mappings, hist, n⟩ seen summary i ms).1 =
        ⟨es ++ createdEvents mappings n ms, mappings, hist, n + ms.length⟩ ∧
      (importLoop noFaults ⟨es, mappings, hist, n⟩ seen summary i ms).2.2 =
        { summary with createdCount := summary.createdCount + ms.length } := by
  induction ms with
  | nil =>
    intro es hist n seen summary i _ _
    constructor
    · simp [importLoop, createdEvents]
    · simp [importLoop]
  | cons m rest ih =>
    intro es hist n seen summary i hmiss hpw
    have hres : resolveExisting es m = none := by
      unfold resolveExisting findByBfvId findFallback
      have h1 : es.find? (byIdPred (generateExternalId m)) = none :=
        List.find?_eq_none.mpr (fun e he => by
          have hh := hmiss m (List.mem_cons_self _ _) e he
          simp [resolveHit] at hh
          simp [hh.1])
      have h2 : es.find? (fallbackPred m) = none :=
        List.find?_eq_none.mpr (fun e he => by
          have hh := hmiss m (List.mem_cons_self _ _) e he
          simp [resolveHit] at hh
          simp [hh.2])
      rw [h1]
      exact h2
    have hstep : importStep ⟨es, mappings, hist, n⟩ seen summary m none =
        (⟨es ++ [createdRow n m (generateExternalId m)
            (getDefaultFieldForTeam mappings m.team m.isHomeGame)],
          mappings, hist, n + 1⟩,
          generateExternalId m :: seen,
          { summary with createdCount := summary.createdCount + 1 }) := by
      simp [importStep, hres]
    have hpw' := (List.pairwise_cons.mp hpw)
    have hmiss' : ∀ m' ∈ rest,
        ∀ e ∈ es ++ [createdRow n m (generateExternalId m)
          (getDefaultFieldForTeam mappings m.team m.isHomeGame)],
        resolveHit m' e = false := by
      intro m' hm' e he
      rcases List.mem_append.mp he with he | he
      · exact hmiss m' (List.mem_cons_of_mem _ hm') e he
      · rw [List.mem_singleton.mp he]
        exact createdRow_not_hit m m' n _ (hpw'.1 m' hm')
    obtain ⟨ihs, ihsum⟩ := ih
      (es ++ [createdRow n m (generateExternalId m)
        (getDefaultFieldForTeam mappings m.team m.isHomeGame)])
      hist (n + 1) (generateExternalId m :: seen)
      { summary with createdCount := summary.createdCount + 1 } (i + 1)
      hmiss' hpw'.2
    have hnoF : noFaults i = none := rfl
    constructor
    · simp only [importLoop, hnoF, hstep]
      rw [ihs]
      have hlist : (es ++ [createdRow n m (generateExternalId m)
          (getDefaultFieldForTeam mappings m.team m.isHomeGame)]) ++
            createdEvents mappings (n + 1) rest =
          es ++ createdEvents mappings n (m :: rest) := by
        simp [createdEvents]
      have hn : n + 1 + rest.length = n + (m :: rest).length := by
        simp only [List.length_cons]
        omega
      rw [hlist, hn]
    · simp only [importLoop, hnoF, hstep]
      rw [ihsum]
      have hc : summary.createdCount + 1 + rest.length =
          summary.createdCount + (m :: rest).length := by
        simp only [List.length_cons]
        omega
      rw [hc]

/-- Helper: replaying a batch of pairwise-distinct fixtures against the
store holding exactly their created rows leaves the store untouched and
counts every record unchanged. -/
theorem importLoop_all_unchanged (mappings : List FieldMapping)
    (ms : List ParsedBfvMatch) :
    ∀ (pre : List StoredEvent) (hist : List ImportHistoryRecord)
      (k N : Nat) (seen : List String) (summary : BfvImportSummary) (i : Nat),
    (∀ m ∈ ms, ∀ e ∈ pre, byIdPred (generateExternalId m) e = false) →
    ms.Pairwise DistinctFixtures →
    (importLoop noFaults
        ⟨pre ++ createdEvents mappings k ms, mappings, hist, N⟩
        seen summary i ms).1 =
        ⟨pre ++ createdEvents mappings k ms, mappings, hist, N⟩ ∧
      (importLoop noFaults
        ⟨pre ++ createdEvents mappings k ms, mappings, hist, N⟩
        seen summary i ms).2.2 =
        { summary with unchangedCount :=
            summary.unchangedCount + ms.length } := by
  induction ms with
  | nil =>
    intro pre hist k N seen summary i _ _
    constructor
    · simp [importLoop]
    · simp [importLoop]
  | cons m rest ih =>
    intro pre hist k N seen summary i hmiss hpw
    have hpw' := List.pairwise_cons.mp hpw
    have hfound : findByBfvId (pre ++ createdEvents mappings k (m :: rest))
        (generateExternalId m) =
        some (createdRow k m (generateExternalId m)
          (getDefaultFieldForTeam mappings m.team m.isHomeGame)) := by
      unfold findByBfvId
      rw [show createdEvents mappings k (m :: rest) =
        createdRow k m (generateExternalId m)
          (getDefaultFieldForTeam mappings m.team m.isHomeGame) ::
          createdEvents mappings (k + 1) rest from rfl]
      rw [List.find?_append]
      have hpreF : pre.find? (byIdPred (generateExternalId m)) = none :=
        List.find?_eq_none.mpr (fun e he => by
          simp [hmiss m (List.mem_cons_self _ _) e he])
      rw [hpreF]
      simp only [Option.none_or]
      exact List.find?_cons_of_pos _ (createdRow_hit_self m k _)
    have hres : resolveExisting (pre ++ createdEvents mappings k (m :: rest))
        m = some (createdRow k m (generateExternalId m)
          (getDefaultFieldForTeam mappings m.team m.isHomeGame)) := by
      unfold resolveExisting
      rw [hfound]
    have hnochange := createdRow_no_changes mappings k m
    have hstep : importStep
        ⟨pre ++ createdEvents mappings k (m :: rest), mappings, hist, N⟩
        seen summary m none =
        (⟨pre ++ createdEvents mappings k (m :: rest), mappings, hist, N⟩,
          generateExternalId m :: seen,
          { summary with unchangedCount := summary.unchangedCount + 1 }) := by
      simp [importStep, hres, hnochange]
    have hmiss' : ∀ m' ∈ rest,
        ∀ e ∈ pre ++ [createdRow k m (generateExternalId m)
          (getDefaultFieldForTeam mappings m.team m.isHomeGame)],
        byIdPred (generateExternalId m') e = false := by
      intro m' hm' e he
      rcases List.mem_append.mp he with he | he
      · exact hmiss m' (List.mem_cons_of_mem _ hm') e he
      · rw [List.mem_singleton.mp he]
        have := createdRow_not_hit m m' k
          (getDefaultFieldForTeam mappings m.team m.isHomeGame)
          (hpw'.1 m' hm')
        simp [resolveHit] at this
        exact this.1
    have hlist : pre ++ createdEvents mappings k (m :: rest) =
        (pre ++ [createdRow k m (generateExternalId m)
          (getDefaultFieldForTeam mappings m.team m.isHomeGame)]) ++
          createdEvents mappings (k + 1) rest := by
      simp [createdEvents]
    obtain ⟨ihs, ihsum⟩ := ih
      (pre ++ [createdRow k m (generateExternalId m)
        (getDefaultFieldForTeam mappings m.team m.isHomeGame)])
      hist (k + 1) N (generateExternalId m :: seen)
      { summary with unchangedCount := summary.unchangedCount + 1 } (i + 1)
      hmiss' hpw'.2
    have hnoF : noFaults i = none := rfl
    constructor
    · simp only [importLoop, hnoF, hstep]
      rw [show (⟨pre ++ createdEvents mappings k (m :: rest), mappings, hist,
        N⟩ : Store) = ⟨(pre ++ [createdRow k m (generateExternalId m)
          (getDefaultFieldForTeam mappings m.team m.isHomeGame)]) ++
          createdEvents mappings (k + 1) rest, mappings, hist, N⟩
        from by rw [← hlist]]
      rw [ihs]
    · simp only [importLoop, hnoF, hstep]
      rw [show (⟨pre ++ createdEvents mappings k (m :: rest), mappings, hist,
        N⟩ : Store) = ⟨(pre ++ [createdRow k m (generateExternalId m)
          (getDefaultFieldForTeam mappings m.team m.isHomeGame)]) ++
          createdEvents mappings (k + 1) rest, mappings, hist, N⟩
        from by rw [← hlist]]
      rw [ihsum]
      have hc : summary.unchangedCount + 1 + rest.length =
          summary.unchangedCount + (m :: rest).length := by
        simp only [List.length_cons]
        omega
      rw [hc]

/-- Helper: with `archiveMissing = false` the returned summary is the
loop's summary and the store parts other than the audit history pass
through. -/
theorem importBfvMatches_false_parts (store : Store)
    (ms : List ParsedBfvMatch) (fn : Option String)
    (faults : Nat → Option String) :
    (importBfvMatches store ms fn false faults none).2 =
        (importLoop faults store [] emptySummary 0 ms).2.2 ∧
      (importBfvMatches store ms fn false faults none).1.events =
        (importLoop faults store [] emptySummary 0 ms).1.events ∧
      (importBfvMatches store ms fn false faults none).1.fieldMappings =
        (importLoop faults store [] emptySummary 0 ms).1.fieldMappings := by
  refine ⟨?_, ?_, ?_⟩ <;> simp [importBfvMatches, appendHistory]

/-- Helper: `importLoop_all_unchanged` restated for a whole store whose
events are exactly the batch's created rows. -/
theorem importLoop_all_unchanged_store (mappings : List FieldMapping)
    (ms : List ParsedBfvMatch) (st : Store) (seen : List String)
    (summary : BfvImportSummary) (i : Nat)
    (hev : st.events = createdEvents mappings 0 ms)
    (hmp : st.fieldMappings = mappings)
    (hpw : ms.Pairwise DistinctFixtures) :
    (importLoop noFaults st seen summary i ms).2.2 =
      { summary with unchangedCount :=
          summary.unchangedCount + ms.length } := by
  obtain ⟨evs, mps, hist, n⟩ := st
  dsimp only at hev hmp
  subst hev
  subst hmp
  have h := (importLoop_all_unchanged mps ms [] hist 0 n seen summary i
    (fun m _ e he => absurd he (List.not_mem_nil e)) hpw).2
  simpa using h

/-- **C1 (counterexample)** Idempotence fails for a batch holding two
records with the same external id but different kick-off times: the two
records overwrite each other on every run, so the second run reports two
updates and nothing unchanged. -/
theorem idempotence_counterexample :
    (importBfvMatches
        (importBfvMatches emptyStore [conflictMatchA, conflictMatchB] none
          false noFaults none).1
        [conflictMatchA, conflictMatchB] none false noFaults
        none).2.updatedCount = 2 ∧
    (importBfvMatches
        (importBfvMatches emptyStore [conflictMatchA, conflictMatchB] none
          false noFaults none).1
        [conflictMatchA, conflictMatchB] none false noFaults
        none).2.unchangedCount = 0 := by
  constructor
  · decide
  · decide

/-- **C1 (amended)** Idempotence for conflict-free batches: importing a
batch of pairwise-distinct fixtures (distinct generated external ids and
distinct home/away name pairs) into an empty store and then re-running the
same batch yields `updatedCount = 0`, `createdCount = 0`, `errorCount = 0`,
and `unchangedCount` equal to the batch size — zero writes on replay. -/
theorem idempotent_reimport (mappings : List FieldMapping)
    (ms : List ParsedBfvMatch) (fn1 fn2 : Option String)
    (hdist : ms.Pairwise DistinctFixtures) :
    (importBfvMatches
        (importBfvMatches ⟨[], mappings, [], 0⟩ ms fn1 false noFaults
          none).1 ms fn2 false noFaults none).2.updatedCount = 0 ∧
    (importBfvMatches
        (importBfvMatches ⟨[], mappings, [], 0⟩ ms fn1 false noFaults
          none).1 ms fn2 false noFaults none).2.createdCount = 0 ∧
    (importBfvMatches
        (importBfvMatches ⟨[], mappings, [], 0⟩ ms fn1 false noFaults
          none).1 ms fn2 false noFaults none).2.unchangedCount = ms.length ∧
    (importBfvMatches
        (importBfvMatches ⟨[], mappings, [], 0⟩ ms fn1 false noFaults
          none).1 ms fn2 false noFaults none).2.errorCount = 0 := by
  have h1s := (importLoop_all_create mappings ms [] [] 0 [] emptySummary 0
    (fun m _ e he => absurd he (List.not_mem_nil e)) hdist).1
  have hparts1 := importBfvMatches_false_parts ⟨[], mappings, [], 0⟩ ms fn1
    noFaults
  have hS1ev : (importBfvMatches ⟨[], mappings, [], 0⟩ ms fn1 false noFaults
      none).1.events = createdEvents mappings 0 ms := by
    rw [hparts1.2.1, h1s]
    simp
  have hS1mp : (importBfvMatches ⟨[], mappings, [], 0⟩ ms fn1 false noFaults
      none).1.fieldMappings = mappings := by
    rw [hparts1.2.2, h1s]
  have hmain := importLoop_all_unchanged_store mappings ms
    (importBfvMatches ⟨[], mappings, [], 0⟩ ms fn1 false noFaults none).1
    [] emptySummary 0 hS1ev hS1mp hdist
  have hparts2 := importBfvMatches_false_parts
    (importBfvMatches ⟨[], mappings, [], 0⟩ ms fn1 false noFaults none).1
    ms fn2 noFaults
  rw [hparts2.1, hmain]
  refine ⟨rfl, rfl, ?_, rfl⟩
  simp [emptySummary]

/-- Witness for C1 (amended): a two-record batch of distinct fixtures
replays as all-unchanged. -/
theorem idempotent_reimport_witness :
    [conflictMatchA, exampleMatch].Pairwise DistinctFixtures ∧
    (importBfvMatches
        (importBfvMatches ⟨[], [], [], 0⟩ [conflictMatchA, exampleMatch]
          none false noFaults none).1
        [conflictMatchA, exampleMatch] none false noFaults
        none).2.unchangedCount = 2 :=
  ⟨by
    refine List.pairwise_cons.mpr ⟨?_, List.pairwise_singleton _ _⟩
    intro b hb
    rw [List.mem_singleton.mp hb]
    exact ⟨by decide, Or.inl (by decide)⟩,
   (idempotent_reimport [] [conflictMatchA, exampleMatch] none none
      (by
        refine List.pairwise_cons.mpr ⟨?_, List.pairwise_singleton _ _⟩
        intro b hb
        rw [List.mem_singleton.mp hb]
        exact ⟨by decide, Or.inl (by decide)⟩)).2.2.1⟩

/-- **C5** Archival pass: with `archiveMissing = true` and at least one
external id seen in the run, every ACTIVE BFV event of the post-loop store
whose external id is outside the seen set is transitioned to ARCHIVED, and
`archivedCount` is incremented once per such event; an archival-pass
failure (any iteration budget `af`) leaves the created/updated/unchanged/
error counts and the error list exactly as the per-record loop computed
them and is not raised; with `archiveMissing = false` the pass does not
touch the events at all, so such events stay active.  (The store is assumed
well-formed: distinct row ids, as the primary key guarantees.) -/
theorem archival_pass (store : Store) (ms : List ParsedBfvMatch)
    (fn : Option String) (faults : Nat → Option String) (af : Option Nat)
    (hwf : WellFormedStore store) :
    (ms ≠ [] →
      (importBfvMatches store ms fn true faults none).1.events =
        archiveAll (recordPhase store ms faults).2.1
          (recordPhase store ms faults).1.events ∧
      (importBfvMatches store ms fn true faults none).2.archivedCount =
        ((recordPhase store ms faults).1.events.filter
          (archiveTargeted (recordPhase store ms faults).2.1)).length) ∧
    ((importBfvMatches store ms fn true faults af).2.createdCount =
        (recordPhase store ms faults).2.2.createdCount ∧
      (importBfvMatches store ms fn true faults af).2.updatedCount =
        (recordPhase store ms faults).2.2.updatedCount ∧
      (importBfvMatches store ms fn true faults af).2.unchangedCount =
        (recordPhase store ms faults).2.2.unchangedCount ∧
      (importBfvMatches store ms fn true faults af).2.errorCount =
        (recordPhase store ms faults).2.2.errorCount ∧
      (importBfvMatches store ms fn true faults af).2.errors =
        (recordPhase store ms faults).2.2.errors) ∧
    (importBfvMatches store ms fn false faults af).1.events =
      (recordPhase store ms faults).1.events := by
  have hwfR := importLoop_wf faults ms store [] emptySummary 0 hwf
  have harch0 := importLoop_archivedCount faults ms store [] emptySummary 0
  have hlen := importLoop_seen_length faults ms store [] emptySummary 0
  rcases hR : importLoop faults store [] emptySummary 0 ms with
    ⟨⟨evs, mps, hists, nid⟩, seenL, summL⟩
  rw [hR] at hwfR harch0 hlen
  simp only [importBfvMatches, recordPhase]
  rw [hR]
  dsimp only
  refine ⟨?_, ?_, ?_⟩
  · intro hne
    have hlen' : seenL.length = ms.length := by simpa using hlen
    have hnonempty : seenL.isEmpty = false := by
      rcases ms with _ | ⟨a, as⟩
      · exact absurd rfl hne
      · rcases seenL with _ | ⟨b, bs⟩
        · simp at hlen'
        · rfl
    rw [hnonempty]
    simp only [Bool.not_false, Bool.and_self, if_true]
    have hgo := archiveLoop_go seenL evs [] mps hists nid summL
      (by simpa using hwfR.1) (by simp)
    simp only [List.nil_append] at hgo
    rw [hgo]
    constructor
    · rfl
    · have h0 : summL.archivedCount = 0 := by
        simpa [emptySummary] using harch0
      dsimp only
      rw [h0]
      simp
  · by_cases hne : seenL.isEmpty = true
    · simp [hne]
    · have hne' : seenL.isEmpty = false := by simpa using hne
      simp only [hne', Bool.not_false, Bool.and_self, if_true]
      exact archiveLoop_other_counts seenL (getBfvEventIds evs)
        ⟨evs, mps, hists, nid⟩ summL af
  · simp only [Bool.false_and, Bool.false_eq_true, if_false]
    rfl

/-- Witness for C5: a store holding one active BFV event, a batch not
containing it; the theorem's full-archival characterization applies. -/
theorem archival_pass_witness :
    WellFormedStore churnStore ∧
    (importBfvMatches churnStore [exampleMatch] none true noFaults
        none).1.events =
      archiveAll (recordPhase churnStore [exampleMatch] noFaults).2.1
        (recordPhase churnStore [exampleMatch] noFaults).1.events :=
  ⟨⟨by decide, by decide⟩,
    ((archival_pass churnStore [exampleMatch] none noFaults none
      ⟨by decide, by decide⟩).1 (by simp)).1⟩

/-- **C3** Change-detector precision: `needsUpdate` is true iff the change
list is non-empty, and an absent incoming value — an unsupplied resolved
field, a blank/absent location, a blank competition — never contributes a
change entry: the detector's result does not depend on the stored value of
that field at all.  Only a present incoming value that differs from the
stored one can produce an entry. -/
theorem matchNeedsUpdate_precision (e : CalendarEvent) (m : ParsedBfvMatch)
    (f : Option Field) :
    ((matchNeedsUpdate e m f).needsUpdate = true ↔
      (matchNeedsUpdate e m f).changes ≠ []) ∧
    (f = none → ∀ v, matchNeedsUpdate { e with field := v } m f =
      matchNeedsUpdate e m f) ∧
    (jsTruthy m.location = false → ∀ v,
      matchNeedsUpdate { e with location := v } m f = matchNeedsUpdate e m f) ∧
    (m.competition = "" → ∀ v,
      matchNeedsUpdate { e with competition := v } m f =
        matchNeedsUpdate e m f) := by
  refine ⟨?_, ?_, ?_, ?_⟩
  · simp [matchNeedsUpdate, List.length_pos]
  · rintro rfl v
    rfl
  · intro h v
    cases hml : m.location with
    | none => simp [matchNeedsUpdate, hml]
    | some s =>
      have hs : s = "" := by
        simpa [jsTruthy, hml] using h
      subst hs
      simp [matchNeedsUpdate, hml]
  · intro h v
    simp [matchNeedsUpdate, h]

/-- Witness for C3: a concrete instance where the incoming location is
absent and the detector ignores the stored location. -/
theorem matchNeedsUpdate_precision_witness :
    jsTruthy churnMatch.location = false ∧
    matchNeedsUpdate { churnCalendarEvent with location := some "Away park" }
        churnMatch none =
      matchNeedsUpdate churnCalendarEvent churnMatch none :=
  ⟨by decide,
    (matchNeedsUpdate_precision churnCalendarEvent churnMatch none).2.2.1
      (by decide) (some "Away park")⟩

/-- **C8 (counterexample)** The key generator is not insensitive to interior
whitespace: `"a b"` and `"a  b"` differ only in whitespace, yet produce
different keys (only leading/trailing whitespace is trimmed). -/
theorem generateMatchKey_ws_counterexample :
    caseWsAgnosticEq "a b" "a  b" ∧
    generateMatchKey "a b" "x" "d" none ≠ generateMatchKey "a  b" "x" "d" none := by
  constructor
  · unfold caseWsAgnosticEq
    decide
  · decide

/-- **C8 (amended)** The key generator is a pure function of its arguments,
insensitive to letter case and to leading/trailing whitespace: inputs whose
team names agree after lowercasing and trimming, and whose competitions are
either both blank/absent or both present with equal lowercased/trimmed
value, produce the same key. -/
theorem generateMatchKey_insensitive (h h' a a' d : String)
    (c c' : Option String)
    (hh : jsTrim (jsToLowerCase h) = jsTrim (jsToLowerCase h'))
    (ha : jsTrim (jsToLowerCase a) = jsTrim (jsToLowerCase a'))
    (hc : jsTruthy c = jsTruthy c')
    (hcv : jsTruthy c = true →
      jsTrim (jsToLowerCase (c.getD "")) = jsTrim (jsToLowerCase (c'.getD ""))) :
    generateMatchKey h a d c = generateMatchKey h' a' d c' := by
  unfold generateMatchKey
  rw [hh, ha, ← hc]
  by_cases hct : jsTruthy c = true
  · simp only [hct, if_true, hcv hct]
  · simp only [Bool.not_eq_true] at hct
    simp only [hct, Bool.false_eq_true, if_false]

/-- Witness for C8 (amended): differing case and outer whitespace, same
key. -/
theorem generateMatchKey_insensitive_witness :
    generateMatchKey "SV A " "Club" "2026-03-01" none =
      generateMatchKey " sv a" "cluB" "2026-03-01" (some "") :=
  generateMatchKey_insensitive "SV A " " sv a" "Club" "cluB" "2026-03-01"
    none (some "") (by decide) (by decide) (by decide) (by decide)

/-- **C4** Away-game field policy: the field resolver returns `undefined`
for every non-home match regardless of the mapping table, and a record with
`isHomeGame = false` never writes an event row with a set field: every row
in the post-step store is either an untouched pre-existing row or has its
field unset. -/
theorem awayGame_field_unset (store : Store) (seen : List String)
    (summary : BfvImportSummary) (m : ParsedBfvMatch) (fault : Option String)
    (haway : m.isHomeGame = false) :
    (∀ mappings team, getDefaultFieldForTeam mappings team false = none) ∧
    ∀ e' ∈ (importStep store seen summary m fault).1.events,
      e' ∈ store.events ∨ e'.field = none := by
  constructor
  · intro mappings team
    rfl
  · intro e' he'
    cases fault with
    | some msg =>
      exact Or.inl (by simpa [importStep] using he')
    | none =>
      simp only [importStep] at he'
      cases hres : resolveExisting store.events m with
      | some existing =>
        rw [hres] at he'
        by_cases hnu : (matchNeedsUpdate (dbEventToCalendarEvent existing) m
            (getDefaultFieldForTeam store.fieldMappings m.team m.isHomeGame)).needsUpdate
        · simp only [hnu, if_true] at he'
          rcases List.mem_map.mp he' with ⟨e, he, rfl⟩
          by_cases hid : (e.id == existing.id) = true
          · right
            simp [hid, updatedRow, haway]
          · left
            simpa [hid] using he
        · simp only [hnu] at he'
          exact Or.inl (by simpa using he')
      | none =>
        rw [hres] at he'
        simp only [List.mem_append, List.mem_singleton] at he'
        rcases he' with he' | rfl
        · exact Or.inl he'
        · right
          simp [createdRow, haway]

/-- Witness for C4: a concrete away-game step leaves the stored field
unset. -/
theorem awayGame_field_unset_witness :
    churnMatch.isHomeGame = false ∧
    ∀ e' ∈ (importStep emptyStore [] emptySummary churnMatch none).1.events,
      e' ∈ emptyStore.events ∨ e'.field = none :=
  ⟨by decide,
    (awayGame_field_unset emptyStore [] emptySummary churnMatch none
      (by decide)).2⟩

/-- **C7** End-to-end example: importing the specification's single-record
batch into an empty store (with an arbitrary field-mapping table) creates
exactly one event, titled "SV A vs Club", with the content-derived external
id and the (herren, spiel) default venue if one is mapped. -/
theorem endToEnd_example (mappings : List FieldMapping) (fn : Option String) :
    let r := importBfvMatches { emptyStore with fieldMappings := mappings }
      [exampleMatch] fn false noFaults none
    r.2.createdCount = 1 ∧
    r.1.events.map (·.title) = ["SV A vs Club"] ∧
    r.1.events.map (·.externalId) = [some "sv a|club|2026-03-01|kreisliga"] ∧
    r.1.events.map (·.field) = [getDefaultField mappings "herren" "spiel"] := by
  have hev : (importBfvMatches { emptyStore with fieldMappings := mappings }
      [exampleMatch] fn false noFaults none).1.events =
      [createdRow 0 exampleMatch (generateExternalId exampleMatch)
        (getDefaultField mappings "herren" "spiel")] := rfl
  refine ⟨rfl, ?_, ?_, ?_⟩ <;> rw [hev]
  · have h1 : matchTitle exampleMatch = "SV A vs Club" := by decide
    simp [createdRow, h1]
  · have h2 : generateExternalId exampleMatch =
        "sv a|club|2026-03-01|kreisliga" := by decide
    simp [createdRow, h2]
  · simp [createdRow, exampleMatch]

/-- **C6 (counterexample)** The per-record error entry is not the bare
`"{home} vs {away}: {message}"` string: the code prefixes it with
"Fehler bei ". -/
theorem errorEntry_counterexample :
    (importBfvMatches emptyStore [churnMatch] none false boomFaults
        none).2.errorCount = 1 ∧
    (importBfvMatches emptyStore [churnMatch] none false boomFaults
        none).2.errors = ["Fehler bei H vs A: boom"] ∧
    (importBfvMatches emptyStore [churnMatch] none false boomFaults
        none).2.errors ≠ ["H vs A: boom"] := by
  refine ⟨by decide, by decide, by decide⟩

/-- **C6 (amended)** Per-record error isolation: an exception while
processing one record leaves the store untouched, increments `errorCount`
by one, appends the formatted `"Fehler bei {home} vs {away}: {message}"`
entry, and the loop continues with the remaining records from the same
state — no batch abort, no effect on the other records' outcomes. -/
theorem errorIsolation (store : Store) (seen : List String)
    (summary : BfvImportSummary) (m : ParsedBfvMatch)
    (rest : List ParsedBfvMatch) (faults : Nat → Option String) (i : Nat)
    (msg : String) (hf : faults i = some msg) :
    importLoop faults store seen summary i (m :: rest) =
      importLoop faults store (generateExternalId m :: seen)
        { summary with
          errorCount := summary.errorCount + 1
          errors := summary.errors ++
            ["Fehler bei " ++ m.teamHome ++ " vs " ++ m.teamAway ++ ": " ++ msg] }
        (i + 1) rest := by
  simp [importLoop, importStep, hf]

/-- Witness for C6 (amended): a concrete record that throws "boom". -/
theorem errorIsolation_witness :
    importLoop boomFaults emptyStore [] emptySummary 0 [churnMatch] =
      importLoop boomFaults emptyStore (generateExternalId churnMatch :: [])
        { emptySummary with
          errorCount := emptySummary.errorCount + 1
          errors := emptySummary.errors ++
            ["Fehler bei " ++ churnMatch.teamHome ++ " vs " ++
              churnMatch.teamAway ++ ": " ++ "boom"] }
        (0 + 1) [] :=
  errorIsolation emptyStore [] emptySummary churnMatch [] boomFaults 0 "boom"
    rfl

/-- **C2 (counterexample)** A match whose upstream id changed but whose
fixture data is otherwise identical to the stored active BFV event is *not*
updated: the run resolves it via the fallback, counts it unchanged, and
leaves the stored row — including its stale external id — untouched. -/
theorem fallback_counterexample :
    churnEvent.externalId = some "old" ∧
    generateExternalId churnMatch = "new" ∧
    churnEvent.teamHome = some churnMatch.teamHome ∧
    churnEvent.teamAway = some churnMatch.teamAway ∧
    churnEvent.date = churnMatch.date ∧
    churnEvent.source = "BFV" ∧ churnEvent.status = "ACTIVE" ∧
    (importBfvMatches churnStore [churnMatch] none false noFaults
        none).2.updatedCount = 0 ∧
    (importBfvMatches churnStore [churnMatch] none false noFaults
        none).2.unchangedCount = 1 ∧
    (importBfvMatches churnStore [churnMatch] none false noFaults
        none).1.events = [churnEvent] := by
  decide

/-- **C2 (amended)** Fallback matching: when the primary id lookup misses
but the fallback predicate (source BFV, same teamHome/teamAway, ACTIVE)
finds an event, the record resolves to that event and never creates a
second one; it is updated (adopting the new external id) exactly when the
change detector reports a difference, and otherwise counted unchanged with
the stored row left as it is. -/
theorem fallback_resolution (store : Store) (seen : List String)
    (summary : BfvImportSummary) (m : ParsedBfvMatch) (e : StoredEvent)
    (hid : findByBfvId store.events (generateExternalId m) = none)
    (hfb : findFallback store.events m = some e) :
    (importStep store seen summary m none).2.2.createdCount =
      summary.createdCount ∧
    (importStep store seen summary m none).1.events.length =
      store.events.length ∧
    ((matchNeedsUpdate (dbEventToCalendarEvent e) m
        (getDefaultFieldForTeam store.fieldMappings m.team
          m.isHomeGame)).needsUpdate = true →
      (importStep store seen summary m none).2.2.updatedCount =
        summary.updatedCount + 1 ∧
      (importStep store seen summary m none).1.events =
        store.events.map (fun ev =>
          if ev.id == e.id then
            updatedRow m (generateExternalId m)
              (getDefaultFieldForTeam store.fieldMappings m.team m.isHomeGame) ev
          else ev)) ∧
    ((matchNeedsUpdate (dbEventToCalendarEvent e) m
        (getDefaultFieldForTeam store.fieldMappings m.team
          m.isHomeGame)).needsUpdate = false →
      (importStep store seen summary m none).2.2.unchangedCount =
        summary.unchangedCount + 1 ∧
      (importStep store seen summary m none).1 = store) := by
  have hres : resolveExisting store.events m = some e := by
    simp [resolveExisting, hid, hfb]
  by_cases hnu : (matchNeedsUpdate (dbEventToCalendarEvent e) m
      (getDefaultFieldForTeam store.fieldMappings m.team
        m.isHomeGame)).needsUpdate = true
  · refine ⟨?_, ?_, fun _ => ⟨?_, ?_⟩, fun hc => absurd hnu (by simp [hc])⟩ <;>
      simp [importStep, hres, hnu]
  · simp only [Bool.not_eq_true] at hnu
    refine ⟨?_, ?_, fun hc => absurd hc (by simp [hnu]), fun _ => ⟨?_, ?_⟩⟩ <;>
      simp [importStep, hres, hnu]

/-- Witness for C2 (amended): the churned-id re-delivery resolves to the
stored event, creates nothing, and is counted unchanged. -/
theorem fallback_resolution_witness :
    (importStep churnStore [] emptySummary churnMatch none).2.2.createdCount =
      emptySummary.createdCount ∧
    (importStep churnStore [] emptySummary churnMatch none).2.2.unchangedCount =
      emptySummary.unchangedCount + 1 ∧
    (importStep churnStore [] emptySummary churnMatch none).1 = churnStore :=
  ⟨(fallback_resolution churnStore [] emptySummary churnMatch churnEvent
      (by decide) (by decide)).1,
   ((fallback_resolution churnStore [] emptySummary churnMatch churnEvent
      (by decide) (by decide)).2.2.2 (by decide)).1,
   ((fallback_resolution churnStore [] emptySummary churnMatch churnEvent
      (by decide) (by decide)).2.2.2 (by decide)).2⟩

/-- **C10** Field preservation on unmapped home-game update: when a
home-game record resolves to an existing event and its team has no
(team, spiel) field mapping, the resolved default field is `undefined`, the
update omits the field column, and every stored row keeps its previous
field value. -/
theorem unmappedHomeUpdate_preserves_field (store : Store)
    (seen : List String) (summary : BfvImportSummary) (m : ParsedBfvMatch)
    (e : StoredEvent) (hhome : m.isHomeGame = true)
    (hnomap : getDefaultField store.fieldMappings m.team "spiel" = none)
    (hres : resolveExisting store.events m = some e) :
    (importStep store seen summary m none).1.events.map (·.field) =
      store.events.map (·.field) := by
  have hdf : getDefaultFieldForTeam store.fieldMappings m.team true = none := by
    simpa [getDefaultFieldForTeam] using hnomap
  by_cases hnu : (matchNeedsUpdate (dbEventToCalendarEvent e) m
      (getDefaultFieldForTeam store.fieldMappings m.team
        m.isHomeGame)).needsUpdate = true
  · simp only [importStep, hres, hnu, if_true]
    rw [List.map_map]
    refine List.map_congr_left ?_
    intro x _
    by_cases hid : (x.id == e.id) = true
    · simp [Function.comp, hid, updatedRow, hhome, hdf]
    · simp [Function.comp, hid]
  · simp only [Bool.not_eq_true] at hnu
    simp [importStep, hres, hnu]

/-- Witness for C10: a moved kick-off on a fixture whose team has no
mapping keeps the manually assigned venue. -/
theorem unmappedHomeUpdate_preserves_field_witness :
    (importStep fieldedStore [] emptySummary homeChurnMatch
        none).1.events.map (·.field) =
      fieldedStore.events.map (·.field) :=
  unmappedHomeUpdate_preserves_field fieldedStore [] emptySummary
    homeChurnMatch fieldedEvent (by decide) (by decide) (by decide)

end OrderPortal
